import Mathlib

/-!
A shallow embedding of the core of the `sss` repository (Solana whirlpool
price monitor): the websocket subscription multiplexer and notification
decoder (`src/connection/websocket.rs`), the bounded price/candlestick
history (`src/data/price_data.rs`), the candlestick regeneration on
timeframe change (`src/ui/chart.rs`), and the arbitrage detector
(`src/lib.rs`), together with theorems settling the specification claims.

Conventions of the embedding:
* `f64` prices are modelled as exact rationals (`ℚ`); the IEEE special
  values that arise from the unguarded divisions in the source are made
  explicit by the type `F64` below (finite / +inf / -inf / NaN).
* `u64`/`usize` are `Nat`; wall-clock time (`SystemTime::now`) is passed
  as an explicit `now : Nat` parameter.
* `VecDeque` is a `List` whose head is the front (oldest) element;
  `push_back` appends, `pop_front` drops the head.
* `HashMap` state (the subscription table) is an association list;
  a `HashMap` iterated over (the detector's input) is an association list
  in iteration order.
* `serde_json::Value` is the inductive `Json` below; the handler is
  embedded at the parsed-`Json` level (text that fails to parse as JSON
  is an error returned through `?` in the source and never reaches the
  field navigation).
-/

namespace Sss

/-- A JSON value, as navigated by the source through `serde_json::Value`.
Numbers are integers (the fields the source reads are integral). -/
inductive Json where
  | null
  | bool (b : Bool)
  | num (n : Int)
  | str (s : String)
  | arr (elems : List Json)
  | obj (fields : List (String × Json))

/-- `Value::get(name)` on an object: first field with the given name. -/
def Json.getField : Json → String → Option Json
  | .obj fields, name => (fields.find? (fun f => f.1 = name)).map (·.2)
  | _, _ => none

/-- `Value::get(i)` on an array. -/
def Json.getIdx : Json → Nat → Option Json
  | .arr elems, i => elems.get? i
  | _, _ => none

/-- `Value::as_str`. -/
def Json.asStr : Json → Option String
  | .str s => some s
  | _ => none

/-- `Value::as_u64`. -/
def Json.asU64 : Json → Option Nat
  | .num n => if 0 ≤ n then some n.toNat else none
  | _ => none

/-! ### base64 (the `base64 = "0.21"` collaborator, standard alphabet) -/

/-- Value of one character of the standard base64 alphabet. -/
def b64CharVal (c : Char) : Option Nat :=
  if 'A' ≤ c ∧ c ≤ 'Z' then some (c.toNat - 'A'.toNat)
  else if 'a' ≤ c ∧ c ≤ 'z' then some (c.toNat - 'a'.toNat + 26)
  else if '0' ≤ c ∧ c ≤ '9' then some (c.toNat - '0'.toNat + 52)
  else if c = '+' then some 62
  else if c = '/' then some 63
  else none

/-- The standard base64 alphabet, indexed by value. -/
def b64CharOf (n : Nat) : Char :=
  if n < 26 then Char.ofNat ('A'.toNat + n)
  else if n < 52 then Char.ofNat ('a'.toNat + (n - 26))
  else if n < 62 then Char.ofNat ('0'.toNat + (n - 52))
  else if n = 62 then '+'
  else '/'

/-- Decode of a padded base64 character stream into bytes
(`base64::decode`); `none` is a decode failure. -/
def b64DecodeCore : List Char → Option (List Nat)
  | [] => some []
  | c1 :: c2 :: c3 :: c4 :: rest => do
    let n1 ← b64CharVal c1
    let n2 ← b64CharVal c2
    if c3 = '=' ∧ c4 = '=' ∧ rest = [] then
      some [n1 * 4 + n2 / 16]
    else if c4 = '=' ∧ rest = [] then
      let n3 ← b64CharVal c3
      some [n1 * 4 + n2 / 16, (n2 % 16) * 16 + n3 / 4]
    else
      let n3 ← b64CharVal c3
      let n4 ← b64CharVal c4
      let tail ← b64DecodeCore rest
      some ((n1 * 4 + n2 / 16) :: ((n2 % 16) * 16 + n3 / 4) :: ((n3 % 4) * 64 + n4) :: tail)
  | _ => none

/-- `base64::decode` on a string. -/
def b64Decode (s : String) : Option (List Nat) :=
  b64DecodeCore s.toList

/-- base64 encoding of a byte list (used to build concrete frames). -/
def b64EncodeCore : List Nat → List Char
  | [] => []
  | [b1] => [b64CharOf (b1 / 4), b64CharOf (b1 % 4 * 16), '=', '=']
  | [b1, b2] =>
      [b64CharOf (b1 / 4), b64CharOf (b1 % 4 * 16 + b2 / 16),
       b64CharOf (b2 % 16 * 4), '=']
  | b1 :: b2 :: b3 :: rest =>
      b64CharOf (b1 / 4) :: b64CharOf (b1 % 4 * 16 + b2 / 16) ::
      b64CharOf (b2 % 16 * 4 + b3 / 64) :: b64CharOf (b3 % 64) ::
      b64EncodeCore rest

def b64Encode (bytes : List Nat) : String :=
  String.mk (b64EncodeCore bytes)

/-! ### Whirlpool pool state (spec-modelled collaborator) -/

/-- Modelled from the spec: the pool-state account type
`crate::dex::whirlpool::state::Whirlpool` is not among the provided
sources; only the fields the provided sources read (`sqrt_price`,
`liquidity`) are modelled. -/
structure Whirlpool where
  sqrt_price : Nat
  liquidity : Nat
deriving DecidableEq

/-- Modelled from the spec: the 8-byte account discriminator of the
pool-state binary layout. The spec fixes only that a discriminator is
checked, not its value; any fixed 8-byte constant serves the model. -/
def whirlpoolDiscriminator : List Nat := [63, 149, 209, 12, 225, 128, 99, 9]

/-- Little-endian unsigned integer value of a byte list. -/
def leBytes : List Nat → Nat
  | [] => 0
  | b :: rest => b % 256 + 256 * leBytes rest

/-- Modelled from the spec: `Whirlpool::try_deserialize` (not among the
provided sources). Per spec §4.2 it deserializes the raw bytes into the
pool-state binary layout and fails on a structural mismatch (wrong
discriminator or length); the modelled layout is the 8-byte
discriminator followed by the two 16-byte little-endian fields read by
the provided sources. -/
def Whirlpool.tryDeserialize (data : List Nat) : Option Whirlpool :=
  if data.length = 40 ∧ data.take 8 = whirlpoolDiscriminator then
    some ⟨leBytes ((data.drop 8).take 16), leBytes ((data.drop 24).take 16)⟩
  else none

/-! ### Decoder / message handler (`handle_websocket_message`) -/

/-- The decode-error taxonomy of spec §7. The embedded handler below
only ever produces `InvalidEncoding` (the `?` on `base64::decode`): the
source has no `DecodeError` type, silently ignores frames whose
`data`/`pubkey` fields are missing, and silently ignores deserialization
failures (`if let Ok(..)` with no else branch). -/
inductive DecodeErr where
  | MalformedEnvelope
  | InvalidEncoding
  | InvalidFormat
deriving DecidableEq

/-- `WhirlpoolUpdate` (the PriceUpdate of the spec). The pubkey is the
account-key string; `solana_program`'s base58 parse is an external
collaborator and the spec treats the key as opaque, so the parse is
modelled as the identity. -/
structure WhirlpoolUpdate where
  pubkey : String
  whirlpool : Whirlpool
  timestamp : Nat
  slot : Nat
deriving DecidableEq

/-- `handle_websocket_message`, embedded at the parsed-`Json` level.
`Except.ok none` is the source returning `Ok(())` without sending an
update; `Except.ok (some u)` is `update_sender.send(u)` followed by
`Ok(())`; `Except.error` is an early return through `?`.
`now` is the wall-clock second at which the frame is processed.
Note the source reads the slot from `value.get("context")`, i.e. from
inside the `value` object. -/
def handleWebsocketMessage (now : Nat) (msg : Json) :
    Except DecodeErr (Option WhirlpoolUpdate) :=
  match msg.getField "params" with
  | none => .ok none
  | some params =>
    match params.getField "result" with
    | none => .ok none
    | some result =>
      match result.getField "value" with
      | none => .ok none
      | some value =>
        match (value.getField "data").bind (fun d => (d.getIdx 0).bind Json.asStr),
              (value.getField "pubkey").bind Json.asStr with
        | some dataStr, some accountStr =>
          match b64Decode dataStr with
          | none => .error .InvalidEncoding
          | some data =>
            match Whirlpool.tryDeserialize data with
            | none => .ok none
            | some whirlpool =>
              let slot :=
                (((value.getField "context").bind
                  (fun c => c.getField "slot")).bind Json.asU64).getD 0
              .ok (some ⟨accountStr, whirlpool, now, slot⟩)
        | _, _ => .ok none

/-- The pubkey field of a frame, at the position the source requires it
(`params.result.value.pubkey`, as a string). -/
def framePubkey (msg : Json) : Option String :=
  match msg.getField "params" with
  | none => none
  | some params =>
    match params.getField "result" with
    | none => none
    | some result =>
      match result.getField "value" with
      | none => none
      | some value => (value.getField "pubkey").bind Json.asStr

/-! ### Subscription multiplexer (`websocket_task`) -/

inductive WebSocketCommand where
  | Subscribe (pubkey : String)
  | Unsubscribe (pubkey : String)
  | Shutdown
deriving DecidableEq

/-- One arm of the `tokio::select!` loop: either a command from the
command queue, an inbound text frame, an inbound close frame, a
connection error, or end of stream. -/
inductive WsEvent where
  | cmd (c : WebSocketCommand)
  | cmdClosed
  | text (msg : Json)
  | close
  | wsError
  | streamEnd

/-- The state owned by the multiplexing task: the subscription table,
the request-id counter, the outbound protocol requests sent so far (in
order), the decoded updates sent to the outbound queue (in order), and
whether the loop is still running. -/
structure WsState where
  subscriptions : List (String × Nat)
  counter : Nat
  sent : List Json
  updates : List WhirlpoolUpdate
  alive : Bool

def WsState.init : WsState := ⟨[], 1, [], [], true⟩

/-- `HashMap::insert` (overwrites any previous binding). -/
def tblInsert (t : List (String × Nat)) (k : String) (v : Nat) :
    List (String × Nat) :=
  t.filter (fun e => e.1 ≠ k) ++ [(k, v)]

/-- `HashMap::get`. -/
def tblLookup (t : List (String × Nat)) (k : String) : Option Nat :=
  (t.find? (fun e => e.1 = k)).map (·.2)

/-- `HashMap::remove` (value discarded by the source). -/
def tblRemove (t : List (String × Nat)) (k : String) :
    List (String × Nat) :=
  t.filter (fun e => e.1 ≠ k)

/-- The `accountSubscribe` request built by the source's `json!` call. -/
def subscribeRequest (id : Nat) (pubkey : String) : Json :=
  .obj [("jsonrpc", .str "2.0"), ("id", .num id),
        ("method", .str "accountSubscribe"),
        ("params", .arr [.str pubkey,
          .obj [("encoding", .str "base64"),
                ("commitment", .str "confirmed")]])]

/-- The `accountUnsubscribe` request built by the source's `json!` call. -/
def unsubscribeRequest (id : Nat) (subId : Nat) : Json :=
  .obj [("jsonrpc", .str "2.0"), ("id", .num id),
        ("method", .str "accountUnsubscribe"),
        ("params", .arr [.num subId])]

/-- One iteration of the `websocket_task` loop on the event the
`select!` woke up on. `serde_json::to_string` on the request values
cannot fail, so the `if let Ok(msg)` branches are always taken; send
errors are discarded by the source (`let _ =`). Decode errors are
logged and dropped (the loop continues); `Shutdown`, a closed command
queue, a close frame, a connection error, or end of stream break the
loop. -/
def wsStep (now : Nat) (s : WsState) (e : WsEvent) : WsState :=
  if ¬ s.alive then s else
  match e with
  | .cmd (.Subscribe pubkey) =>
      { s with
        sent := s.sent ++ [subscribeRequest s.counter pubkey],
        subscriptions := tblInsert s.subscriptions pubkey s.counter,
        counter := s.counter + 1 }
  | .cmd (.Unsubscribe pubkey) =>
      match tblLookup s.subscriptions pubkey with
      | some subId =>
          { s with
            sent := s.sent ++ [unsubscribeRequest s.counter subId],
            subscriptions := tblRemove s.subscriptions pubkey,
            counter := s.counter + 1 }
      | none => s
  | .cmd .Shutdown => { s with alive := false }
  | .cmdClosed => { s with alive := false }
  | .text msg =>
      match handleWebsocketMessage now msg with
      | .ok (some u) => { s with updates := s.updates ++ [u] }
      | .ok none => s
      | .error _ => s
  | .close => { s with alive := false }
  | .wsError => { s with alive := false }
  | .streamEnd => { s with alive := false }

/-- Running the multiplexing loop over a sequence of events. -/
def wsRun (now : Nat) (events : List WsEvent) : WsState :=
  events.foldl (wsStep now) WsState.init

/-! ### IEEE f64 values produced by the source's unguarded divisions -/

/-- The value of an `f64` computation over exact rational inputs: a
finite rational, an infinity, or NaN. The source divides without any
zero guard, so the infinities and NaN produced by dividing by `0.0` are
represented explicitly rather than hidden behind the Lean convention
`q / 0 = 0`. -/
inductive F64 where
  | fin (q : ℚ)
  | posInf
  | negInf
  | nan
deriving DecidableEq

/-- `a / b` in IEEE f64 over exact rational operands. -/
def f64div (a b : ℚ) : F64 :=
  if b ≠ 0 then .fin (a / b)
  else if 0 < a then .posInf
  else if a < 0 then .negInf
  else .nan

/-- `x * 100.0` (the scaling to percent in the source). -/
def f64mul100 : F64 → F64
  | .fin q => .fin (q * 100)
  | .posInf => .posInf
  | .negInf => .negInf
  | .nan => .nan

/-- `x / 10.0` (the confidence scaling in the source). -/
def f64div10 : F64 → F64
  | .fin q => .fin (q / 10)
  | .posInf => .posInf
  | .negInf => .negInf
  | .nan => .nan

/-- `x >= t` on f64 (false whenever `x` is NaN). -/
def f64ge (x : F64) (t : ℚ) : Bool :=
  match x with
  | .fin q => t ≤ q
  | .posInf => true
  | .negInf => false
  | .nan => false

/-- Rust `f64::min(x, c)` with a finite `c`: returns the other operand
when one side is NaN. -/
def f64minQ (x : F64) (c : ℚ) : F64 :=
  match x with
  | .fin q => .fin (min q c)
  | .posInf => .fin c
  | .negInf => .negInf
  | .nan => .fin c

/-- Rust `f64::max(x, c)` with a finite `c`: returns the other operand
when one side is NaN. -/
def f64maxQ (x : F64) (c : ℚ) : F64 :=
  match x with
  | .fin q => .fin (max q c)
  | .posInf => .posInf
  | .negInf => .fin c
  | .nan => .fin c

/-- f64 `<=` as used by the final descending sort on emitted profits.
Emitted profits pass the threshold comparison, hence are never NaN; the
NaN rows (on which the source's `partial_cmp().unwrap()` would panic)
are given an arbitrary total value. -/
def f64le (x y : F64) : Bool :=
  match x, y with
  | .fin a, .fin b => a ≤ b
  | .fin _, .posInf => true
  | .fin _, .negInf => false
  | .posInf, .posInf => true
  | .posInf, _ => false
  | .negInf, _ => true
  | .nan, _ => true
  | _, .nan => true

/-! ### Price history (`src/data/price_data.rs`) -/

structure PricePoint where
  timestamp : Nat
  price : ℚ
  volume : ℚ
  liquidity : ℚ
  tick : Int
deriving DecidableEq

structure CandlestickData where
  timestamp : Nat
  open_ : ℚ
  high : ℚ
  low : ℚ
  close : ℚ
  volume : ℚ
deriving DecidableEq

/-- `PriceHistory`: the two bounded `VecDeque`s (front = oldest = list
head) plus the configuration. -/
structure PriceHistory where
  points : List PricePoint
  candlesticks : List CandlestickData
  max_size : Nat
  timeframe_seconds : Nat
deriving DecidableEq

/-- `PriceHistory::new` (`with_capacity` only preallocates; both deques
start empty). -/
def PriceHistory.new (max_size : Nat) (timeframe_seconds : Nat) : PriceHistory :=
  ⟨[], [], max_size, timeframe_seconds⟩

/-- The create-new-candle tail of `update_candlestick` (append, with
FIFO eviction at capacity `max_size / 10`). -/
def PriceHistory.pushNewCandle (h : PriceHistory) (candleTimestamp : Nat)
    (point : PricePoint) : PriceHistory :=
  let newCandle : CandlestickData :=
    ⟨candleTimestamp, point.price, point.price, point.price, point.price,
      point.volume⟩
  let cs := if h.max_size / 10 ≤ h.candlesticks.length
            then h.candlesticks.tail else h.candlesticks
  { h with candlesticks := cs ++ [newCandle] }

/-- `update_candlestick`. `timeframe_seconds` is expected positive for
fidelity: the source's `u64` division panics on a zero timeframe, while
`Nat` division yields 0. -/
def PriceHistory.updateCandlestick (h : PriceHistory) (point : PricePoint) :
    PriceHistory :=
  let candleTimestamp := point.timestamp / h.timeframe_seconds * h.timeframe_seconds
  match h.candlesticks.getLast? with
  | some lastCandle =>
    if lastCandle.timestamp = candleTimestamp then
      { h with candlesticks := h.candlesticks.dropLast ++
          [{ lastCandle with
              high := max lastCandle.high point.price,
              low := min lastCandle.low point.price,
              close := point.price,
              volume := lastCandle.volume + point.volume }] }
    else h.pushNewCandle candleTimestamp point
  | none => h.pushNewCandle candleTimestamp point

/-- `add_price_point`: FIFO-bounded append to `points`, then the
incremental candlestick update. -/
def PriceHistory.addPricePoint (h : PriceHistory) (point : PricePoint) :
    PriceHistory :=
  let pts := if h.max_size ≤ h.points.length then h.points.tail else h.points
  PriceHistory.updateCandlestick { h with points := pts ++ [point] } point

/-- Recording a sequence of points in order. -/
def PriceHistory.recordAll (h : PriceHistory) (ps : List PricePoint) :
    PriceHistory :=
  ps.foldl PriceHistory.addPricePoint h

/-- `get_price_range` (a `&self` query: the history is not mutated). -/
def PriceHistory.getPriceRange (h : PriceHistory)
    (fromTimestamp toTimestamp : Nat) : List PricePoint :=
  h.points.filter
    (fun p => fromTimestamp ≤ p.timestamp ∧ p.timestamp ≤ toTimestamp)

/-- `get_latest_price`. -/
def PriceHistory.getLatestPrice (h : PriceHistory) : Option ℚ :=
  h.points.getLast?.map (·.price)

/-- `get_price_change_24h`, with the wall clock passed explicitly. The
final percentage is the source's unguarded
`((current - old) / old) * 100.0`, an f64 value. -/
def PriceHistory.getPriceChange24h (h : PriceHistory) (now : Nat) :
    Option F64 :=
  if h.points.length < 2 then none
  else
    let dayAgo := now - 86400
    match (h.points.find? (fun p => dayAgo ≤ p.timestamp)).map (·.price) with
    | none => none
    | some oldPrice =>
      match h.points.getLast? with
      | none => none
      | some lastPoint =>
        some (f64mul100 (f64div (lastPoint.price - oldPrice) oldPrice))

/-- `regenerate_candlesticks` (from `src/ui/chart.rs`), for one history:
set the new timeframe, clear the bucket sequence, and replay every
retained point in original order through `update_candlestick`. -/
def PriceHistory.regenerateCandlesticks (h : PriceHistory) (timeframe : Nat) :
    PriceHistory :=
  h.points.foldl PriceHistory.updateCandlestick
    { h with timeframe_seconds := timeframe, candlesticks := [] }

/-! ### Arbitrage detector (`src/lib.rs`) -/

structure ArbitrageOpportunity where
  token_pair : String
  buy_dex : String
  sell_dex : String
  buy_price : ℚ
  sell_price : ℚ
  profit_percentage : F64
  profit_usd : ℚ
  timestamp : Nat
  confidence_score : F64
deriving DecidableEq

/-- Stable insertion of `x` into `l` before the first element `y` with
`le x y`. -/
def insertBy (le : α → α → Bool) (x : α) : List α → List α
  | [] => [x]
  | y :: ys => if le x y then x :: y :: ys else y :: insertBy le x ys

/-- A stable sort by the boolean comparator `le` (Rust's
`slice::sort_by` is a stable sort; for a total transitive comparator
every stable sort computes the same list, so insertion sort embeds it
faithfully). -/
def sortBy (le : α → α → Bool) : List α → List α
  | [] => []
  | x :: xs => insertBy le x (sortBy le xs)

/-- `calculate_confidence_score`:
`(profit_percentage / 10.0).min(1.0).max(0.0)`. -/
def calculateConfidenceScore (profitPercentage : F64) : F64 :=
  f64maxQ (f64minQ (f64div10 profitPercentage) 1) 0

/-- The per-pair body of the `detect_opportunities` loop: sort the
venue prices ascending, and if at least two venues report, compare the
cheapest (buy) against the most expensive (sell) with the source's
unguarded `(sell - buy) / buy * 100.0`. -/
def detectPair (minProfitThreshold : ℚ) (now : Nat)
    (entry : String × List (String × ℚ)) : List ArbitrageOpportunity :=
  let dexPriceVec := sortBy (fun a b => a.2 ≤ b.2) entry.2
  if 2 ≤ dexPriceVec.length then
    match dexPriceVec.head?, dexPriceVec.getLast? with
    | some (buyDex, buyPrice), some (sellDex, sellPrice) =>
      let profitPercentage := f64mul100 (f64div (sellPrice - buyPrice) buyPrice)
      if f64ge profitPercentage minProfitThreshold then
        [⟨entry.1, buyDex, sellDex, buyPrice, sellPrice, profitPercentage, 0,
          now, calculateConfidenceScore profitPercentage⟩]
      else []
    | _, _ => []
  else []

/-- `detect_opportunities`: clear the old list, emit per pair, then sort
descending by profit percentage (the source's comparator
`b.profit_percentage.partial_cmp(&a.profit_percentage)`). -/
def detectOpportunities (prices : List (String × List (String × ℚ)))
    (minProfitThreshold : ℚ) (now : Nat) : List ArbitrageOpportunity :=
  sortBy (fun a b => f64le b.profit_percentage a.profit_percentage)
    (prices.flatMap (detectPair minProfitThreshold now))

/-! ### Helper functions for stating the claims -/

/-- The in-place same-bucket branch of `update_candlestick`, as a pure
step on a candle. -/
def candleAbsorb (c : CandlestickData) (p : PricePoint) : CandlestickData :=
  ⟨c.timestamp, c.open_, max c.high p.price, min c.low p.price, p.price,
    c.volume + p.volume⟩

/-- Maximum of a price list (0 on the empty list, which the claims never
use). -/
def listMax : List ℚ → ℚ
  | [] => 0
  | q :: qs => qs.foldl max q

/-- Minimum of a price list (0 on the empty list, which the claims never
use). -/
def listMin : List ℚ → ℚ
  | [] => 0
  | q :: qs => qs.foldl min q

/-! ### Concrete inputs used by the claim theorems and witnesses -/

/-- A pool-state byte string accepted by the modelled deserializer. -/
def wbytes : List Nat := whirlpoolDiscriminator ++ List.replicate 32 1

def goodDataStr : String := b64Encode wbytes

/-- The pool state `wbytes` deserializes to. -/
def goodWhirlpool : Whirlpool :=
  ⟨leBytes (List.replicate 16 1), leBytes (List.replicate 16 1)⟩

/-- A well-formed notification frame (base64 pool data plus pubkey). -/
def goodFrame : Json :=
  .obj [("params", .obj [("result", .obj [
    ("value", .obj [
      ("data", .arr [.str goodDataStr, .str "base64"]),
      ("pubkey", .str "PoolKey111")])])])]

/-- The update decoded from `goodFrame` at wall-clock `now`. -/
def goodUpdate (now : Nat) : WhirlpoolUpdate :=
  ⟨"PoolKey111", goodWhirlpool, now, 0⟩

/-- A frame that parses as JSON but lacks the `pubkey` field. -/
def noPubkeyFrame : Json :=
  .obj [("params", .obj [("result", .obj [
    ("value", .obj [("data", .arr [.str goodDataStr, .str "base64"])])])])]

/-- A notification frame carrying `slot = 42` at the position the
interface defines: `result.context.slot`, alongside `value`. -/
def c1Frame : Json :=
  .obj [("params", .obj [("result", .obj [
    ("context", .obj [("slot", .num 42)]),
    ("value", .obj [
      ("data", .arr [.str goodDataStr, .str "base64"]),
      ("pubkey", .str "PoolKey111")])])])]

def c2p1 : PricePoint := ⟨913600, 0, 1, 0, 0⟩

def c2p2 : PricePoint := ⟨1000000, 5, 1, 0, 0⟩

/-- A history whose 24h baseline price (at wall clock 1000000) is 0. -/
def c2History : PriceHistory := ⟨[c2p1, c2p2], [], 100, 60⟩

def pt1 : PricePoint := ⟨1000, 100, 10, 0, 0⟩

def pt2 : PricePoint := ⟨1010, 105, 5, 0, 0⟩

def pt3 : PricePoint := ⟨1015, 95, 2, 0, 0⟩

/-! ## Helper lemmas -/

theorem length_insertBy (le : α → α → Bool) (x : α) (l : List α) :
    (insertBy le x l).length = l.length + 1 := by
  induction l with
  | nil => rfl
  | cons y ys ih => by_cases h : le x y <;> simp [insertBy, h, ih]

theorem length_sortBy (le : α → α → Bool) (l : List α) :
    (sortBy le l).length = l.length := by
  induction l with
  | nil => rfl
  | cons x xs ih => simp [sortBy, length_insertBy, ih]

theorem mem_insertBy (le : α → α → Bool) (x y : α) (l : List α) :
    y ∈ insertBy le x l ↔ y = x ∨ y ∈ l := by
  induction l with
  | nil => simp [insertBy]
  | cons z zs ih => by_cases h : le x z <;> simp [insertBy, h, ih] <;> tauto

theorem mem_sortBy (le : α → α → Bool) (x : α) (l : List α) :
    x ∈ sortBy le l ↔ x ∈ l := by
  induction l with
  | nil => exact Iff.rfl
  | cons y ys ih => simp [sortBy, mem_insertBy, ih]

/-- Every opportunity emitted for a pair entry keeps the entry's pair
name and requires at least two reported venue prices. -/
theorem mem_detectPair {opp : ArbitrageOpportunity} {m : ℚ} {now : Nat}
    {e : String × List (String × ℚ)} (h : opp ∈ detectPair m now e) :
    opp.token_pair = e.1 ∧ 2 ≤ e.2.length := by
  unfold detectPair at h
  by_cases h2 : 2 ≤ (sortBy (fun a b => a.2 ≤ b.2) e.2).length
  · rw [if_pos h2] at h
    rcases hh : (sortBy (fun a b => a.2 ≤ b.2) e.2).head? with _ | ⟨bd, bp⟩ <;>
      rcases hl : (sortBy (fun a b => a.2 ≤ b.2) e.2).getLast? with _ | ⟨sd, sp⟩ <;>
        rw [hh, hl] at h <;> simp only at h
    · simp at h
    · simp at h
    · simp at h
    · rw [length_sortBy] at h2
      by_cases hge : f64ge (f64mul100 (f64div (sp - bp) bp)) m = true
      · rw [if_pos hge] at h
        simp only [List.mem_singleton] at h
        subst h
        exact ⟨rfl, h2⟩
      · rw [if_neg hge] at h
        simp at h
  · rw [if_neg h2] at h
    simp at h

theorem updateCandlestick_points (h : PriceHistory) (p : PricePoint) :
    (h.updateCandlestick p).points = h.points := by
  unfold PriceHistory.updateCandlestick PriceHistory.pushNewCandle
  cases h.candlesticks.getLast? <;> first | rfl | (dsimp only; split <;> rfl)

theorem updateCandlestick_max_size (h : PriceHistory) (p : PricePoint) :
    (h.updateCandlestick p).max_size = h.max_size := by
  unfold PriceHistory.updateCandlestick PriceHistory.pushNewCandle
  cases h.candlesticks.getLast? <;> first | rfl | (dsimp only; split <;> rfl)

theorem updateCandlestick_timeframe (h : PriceHistory) (p : PricePoint) :
    (h.updateCandlestick p).timeframe_seconds = h.timeframe_seconds := by
  unfold PriceHistory.updateCandlestick PriceHistory.pushNewCandle
  cases h.candlesticks.getLast? <;> first | rfl | (dsimp only; split <;> rfl)

theorem addPricePoint_points (h : PriceHistory) (p : PricePoint) :
    (h.addPricePoint p).points =
      (if h.max_size ≤ h.points.length then h.points.tail else h.points) ++ [p] := by
  unfold PriceHistory.addPricePoint
  rw [updateCandlestick_points]

theorem addPricePoint_max_size (h : PriceHistory) (p : PricePoint) :
    (h.addPricePoint p).max_size = h.max_size := by
  unfold PriceHistory.addPricePoint
  rw [updateCandlestick_max_size]

theorem addPricePoint_timeframe (h : PriceHistory) (p : PricePoint) :
    (h.addPricePoint p).timeframe_seconds = h.timeframe_seconds := by
  unfold PriceHistory.addPricePoint
  rw [updateCandlestick_timeframe]

/-- The candlestick effect of `update_candlestick` depends only on the
configuration and the current candle sequence, not on the points. -/
theorem updateCandlestick_candlesticks_congr (h h' : PriceHistory) (p : PricePoint)
    (hm : h.max_size = h'.max_size) (ht : h.timeframe_seconds = h'.timeframe_seconds)
    (hc : h.candlesticks = h'.candlesticks) :
    (h.updateCandlestick p).candlesticks = (h'.updateCandlestick p).candlesticks := by
  unfold PriceHistory.updateCandlestick PriceHistory.pushNewCandle
  rw [hm, ht, hc]
  cases h'.candlesticks.getLast? <;> first | rfl | (dsimp only; split <;> rfl)

/-- Replaying points through `update_candlestick` alone builds the same
candle sequence as recording them through `add_price_point`, whenever
the starting configuration and candle sequence agree. -/
theorem foldl_updateCandlestick_eq (ps : List PricePoint) (h1 h2 : PriceHistory)
    (hm : h1.max_size = h2.max_size) (ht : h1.timeframe_seconds = h2.timeframe_seconds)
    (hc : h1.candlesticks = h2.candlesticks) :
    (ps.foldl PriceHistory.updateCandlestick h1).candlesticks =
      (h2.recordAll ps).candlesticks := by
  induction ps generalizing h1 h2 with
  | nil => simpa [PriceHistory.recordAll] using hc
  | cons p ps ih =>
    show ((ps.foldl PriceHistory.updateCandlestick (h1.updateCandlestick p))).candlesticks =
      ((h2.addPricePoint p).recordAll ps).candlesticks
    apply ih
    · rw [updateCandlestick_max_size, addPricePoint_max_size, hm]
    · rw [updateCandlestick_timeframe, addPricePoint_timeframe, ht]
    · unfold PriceHistory.addPricePoint
      exact updateCandlestick_candlesticks_congr h1 _ p hm ht hc

theorem recordAll_points (ps : List PricePoint) (h : PriceHistory)
    (hle : h.points.length ≤ h.max_size) (hN : 1 ≤ h.max_size) :
    (h.recordAll ps).points =
      (h.points ++ ps).drop (h.points.length + ps.length - h.max_size) := by
  induction ps generalizing h with
  | nil => simp [PriceHistory.recordAll, Nat.sub_eq_zero_of_le hle]
  | cons p ps ih =>
    show ((h.addPricePoint p).recordAll ps).points = _
    by_cases hfull : h.max_size ≤ h.points.length
    · have hlen : h.points.length = h.max_size := le_antisymm hle hfull
      have hne : 1 ≤ h.points.length := by omega
      have hp : (h.addPricePoint p).points = h.points.tail ++ [p] := by
        rw [addPricePoint_points, if_pos hfull]
      have hlen' : (h.addPricePoint p).points.length = h.max_size := by
        rw [hp]
        simp [List.length_tail]
        omega
      rw [ih (h.addPricePoint p) (by rw [hlen', addPricePoint_max_size])
        (by rw [addPricePoint_max_size]; exact hN)]
      rw [hp, addPricePoint_max_size]
      have hL : (h.points.tail ++ [p]).length + ps.length - h.max_size = ps.length := by
        simp [List.length_tail]
        omega
      rw [hL]
      have htail : h.points.tail ++ [p] ++ ps = (h.points ++ p :: ps).drop 1 := by
        rw [List.drop_append_eq_append_drop, ← List.drop_one, List.append_assoc]
        congr 1
        have : 1 - h.points.length = 0 := by omega
        rw [this, List.drop_zero]
        rfl
      rw [htail, List.drop_drop]
      congr 1
      simp
      omega
    · push_neg at hfull
      have hp : (h.addPricePoint p).points = h.points ++ [p] := by
        rw [addPricePoint_points, if_neg (by omega)]
      rw [ih (h.addPricePoint p) (by rw [hp, addPricePoint_max_size]; simp; omega)
        (by rw [addPricePoint_max_size]; exact hN)]
      rw [hp, addPricePoint_max_size]
      rw [List.append_assoc]
      congr 1
      simp
      omega

theorem updateCandlestick_fresh (h : PriceHistory) (p : PricePoint)
    (hc : h.candlesticks = []) :
    (h.updateCandlestick p).candlesticks =
      [⟨p.timestamp / h.timeframe_seconds * h.timeframe_seconds,
        p.price, p.price, p.price, p.price, p.volume⟩] := by
  unfold PriceHistory.updateCandlestick PriceHistory.pushNewCandle
  rw [hc]
  simp

theorem updateCandlestick_absorb (h : PriceHistory) (p : PricePoint)
    (c : CandlestickData) (hc : h.candlesticks = [c])
    (hts : c.timestamp = p.timestamp / h.timeframe_seconds * h.timeframe_seconds) :
    (h.updateCandlestick p).candlesticks = [candleAbsorb c p] := by
  unfold PriceHistory.updateCandlestick
  rw [hc]
  simp [hts, candleAbsorb]

/-- Recording points that all fall in the bucket of the single current
candle only updates that candle in place. -/
theorem recordAll_absorb (ps : List PricePoint) (b : Nat) (h : PriceHistory)
    (c : CandlestickData) (hc : h.candlesticks = [c])
    (hts : c.timestamp = b * h.timeframe_seconds)
    (hb : ∀ p ∈ ps, p.timestamp / h.timeframe_seconds = b) :
    (h.recordAll ps).candlesticks = [ps.foldl candleAbsorb c] := by
  induction ps generalizing h c with
  | nil => simpa [PriceHistory.recordAll] using hc
  | cons p ps ih =>
    show ((h.addPricePoint p).recordAll ps).candlesticks = _
    have hb0 : p.timestamp / h.timeframe_seconds = b := hb p (by simp)
    have hcand : (h.addPricePoint p).candlesticks = [candleAbsorb c p] := by
      unfold PriceHistory.addPricePoint
      apply updateCandlestick_absorb _ _ c
      · simpa using hc
      · show c.timestamp = p.timestamp / h.timeframe_seconds * h.timeframe_seconds
        rw [hts, hb0]
    rw [List.foldl_cons]
    apply ih
    · exact hcand
    · show (candleAbsorb c p).timestamp = b * (h.addPricePoint p).timeframe_seconds
      rw [addPricePoint_timeframe]
      exact hts
    · intro q hq
      rw [addPricePoint_timeframe]
      exact hb q (by simp [hq])

theorem foldl_candleAbsorb (ps : List PricePoint) (c : CandlestickData) :
    ps.foldl candleAbsorb c =
      ⟨c.timestamp, c.open_, (ps.map (·.price)).foldl max c.high,
       (ps.map (·.price)).foldl min c.low, (ps.map (·.price)).getLastD c.close,
       c.volume + (ps.map (·.volume)).sum⟩ := by
  induction ps generalizing c with
  | nil => simp
  | cons p ps ih =>
    simp only [List.foldl_cons, ih, List.map_cons, List.getLastD_cons, List.sum_cons,
      candleAbsorb, add_assoc]

theorem getLastD_map (f : α → β) (l : List α) (a : α) :
    (l.map f).getLastD (f a) = f (l.getLastD a) := by
  induction l generalizing a with
  | nil => rfl
  | cons x xs ih => rw [List.map_cons, List.getLastD_cons, List.getLastD_cons, ih]

/-! ## Claim theorems -/

/-- C1: `c1Frame` carries the numeric slot 42 at the position the
interface defines (`result.context.slot`, alongside `value`), and it
decodes successfully; yet the produced update has `slot = 0`, because
the handler reads the slot from `value.get("context")` — a position the
interface-shaped frames never populate. This exhibits the divergence
between the code and the claim (the claim requires `slot = 42`, and
`slot = 0` despite the field being present). -/
theorem slot_read_from_wrong_position :
    ((((c1Frame.getField "params").bind (fun p => p.getField "result")).bind
      (fun r => r.getField "context")).bind
      (fun c => c.getField "slot")).bind Json.asU64 = some 42 ∧
    handleWebsocketMessage 7 c1Frame = .ok (some ⟨"PoolKey111", goodWhirlpool, 7, 0⟩) :=
  ⟨rfl, rfl⟩

/-- C2 counterexample: on a 2-point history whose 24h-ago baseline price
is exactly 0 and whose latest price is 5, `get_price_change_24h` returns
the IEEE `+∞` produced by the unguarded division, not `Some 0` as the
claim states. -/
theorem price_change_zero_baseline_cex :
    c2History.getPriceChange24h 1000000 = some F64.posInf ∧
    ¬ c2History.getPriceChange24h 1000000 = some (F64.fin 0) := by
  have h : c2History.getPriceChange24h 1000000 = some F64.posInf := by
    norm_num [c2History, PriceHistory.getPriceChange24h, c2p1, c2p2, f64div, f64mul100]
  exact ⟨h, by rw [h]; simp⟩

/-- C3 counterexample: on a pair whose cheapest (buy-side) price is
exactly 0 and whose other venue reports 102, `detect_opportunities`
(threshold 1) does emit an opportunity — with profit percentage `+∞`
from the unguarded division — contradicting the claim that such a pair
is excluded. -/
theorem detect_zero_price_cex :
    detectOpportunities [("P", [("A", 0), ("B", 102)])] 1 0 =
      [⟨"P", "A", "B", 0, 102, F64.posInf, 0, 0, F64.fin 1⟩] ∧
    ¬ detectOpportunities [("P", [("A", 0), ("B", 102)])] 1 0 = [] := by
  have h : detectOpportunities [("P", [("A", 0), ("B", 102)])] 1 0 =
      [⟨"P", "A", "B", 0, 102, F64.posInf, 0, 0, F64.fin 1⟩] := by
    norm_num [detectOpportunities, detectPair, sortBy, insertBy, f64div, f64mul100, f64ge,
      calculateConfidenceScore, f64div10, f64minQ, f64maxQ, List.flatMap]
  exact ⟨h, by rw [h]; simp⟩

/-- C4 counterexample: a history configured with capacity `N = 0` still
stores one point after a single `add_price_point` (the source pops from
an empty deque and then pushes), so the point-sequence length exceeds
the configured capacity. -/
theorem capacity_zero_cex :
    ((PriceHistory.new 0 60).addPricePoint pt1).points.length = 1 ∧
    (PriceHistory.new 0 60).max_size = 0 :=
  ⟨rfl, rfl⟩

/-- C7 counterexample: handling a frame that parses as JSON but lacks
the `pubkey` field returns `Ok` without sending any update — the source
silently ignores the frame; it does not yield
`DecodeError::MalformedEnvelope` (no error at all is produced). -/
theorem missing_pubkey_cex :
    handleWebsocketMessage 0 noPubkeyFrame = .ok none ∧
    ¬ handleWebsocketMessage 0 noPubkeyFrame = .error DecodeErr.MalformedEnvelope := by
  refine ⟨rfl, ?_⟩
  intro h
  rw [show handleWebsocketMessage 0 noPubkeyFrame = .ok none from rfl] at h
  exact Except.noConfusion h

/-- C8: on the input map with the single pair SOL/USDC reporting
VenueA at 100.0 and VenueB at 102.0 and threshold 1.0, detection yields
exactly one opportunity: buy VenueA at 100, sell VenueB at 102, profit
percentage 2, confidence 1/5 (= 0.2). -/
theorem detect_sol_usdc_example (now : Nat) :
    detectOpportunities [("SOL/USDC", [("VenueA", 100), ("VenueB", 102)])] 1 now =
      [⟨"SOL/USDC", "VenueA", "VenueB", 100, 102, F64.fin 2, 0, now, F64.fin (1/5)⟩] := by
  norm_num [detectOpportunities, detectPair, sortBy, insertBy, f64div, f64mul100, f64ge,
    calculateConfidenceScore, f64div10, f64minQ, f64maxQ, List.flatMap]

/-- C9: processing `subscribe(k)` then `unsubscribe(k)` with no
intervening frame leaves no table entry for `k`, and the unsubscribe
request that was sent carries in its params exactly the subscription id
(1) that the subscribe step assigned to `k`. -/
theorem subscribe_then_unsubscribe (k : String) (now : Nat) :
    tblLookup (wsRun now [.cmd (.Subscribe k), .cmd (.Unsubscribe k)]).subscriptions k = none ∧
    (wsRun now [.cmd (.Subscribe k), .cmd (.Unsubscribe k)]).sent =
      [subscribeRequest 1 k, unsubscribeRequest 2 1] ∧
    (unsubscribeRequest 2 1).getField "params" = some (.arr [.num 1]) := by
  refine ⟨?_, ?_, rfl⟩ <;>
    simp [wsRun, wsStep, WsState.init, tblInsert, tblLookup, tblRemove, List.find?, List.filter]

/-- C10: the range query returns exactly the stored points whose
timestamp lies in the inclusive interval, keeps their stored order (it
is a sublist of the stored sequence), and returns the empty sequence for
an empty interval; the history itself is a pure value here and is not
mutated. -/
theorem price_range_query (h : PriceHistory) (a b : Nat) :
    (∀ p, p ∈ h.getPriceRange a b ↔ p ∈ h.points ∧ a ≤ p.timestamp ∧ p.timestamp ≤ b) ∧
    (h.getPriceRange a b).Sublist h.points ∧
    (b < a → h.getPriceRange a b = []) := by
  refine ⟨fun p => ?_, List.filter_sublist _, fun hba => ?_⟩
  · simp [PriceHistory.getPriceRange, List.mem_filter, and_assoc]
  · rw [PriceHistory.getPriceRange, List.filter_eq_nil_iff]
    intro p hp
    simp only [decide_eq_true_eq, not_and]
    intro h1
    omega

/-- C2 amended: `get_price_change_24h` returns `None` when fewer than 2
points exist; but when the baseline point (first stored point with
timestamp ≥ now − 86400) has price exactly 0 and the latest price is
positive, it returns the IEEE `+∞` of the unguarded division — not 0. -/
theorem price_change_24h_guards (h : PriceHistory) (now : Nat) (hnow : 86400 ≤ now) :
    (h.points.length < 2 → h.getPriceChange24h now = none) ∧
    (∀ p0 pl, 2 ≤ h.points.length →
      h.points.find? (fun p => now - 86400 ≤ p.timestamp) = some p0 →
      p0.price = 0 → h.points.getLast? = some pl → 0 < pl.price →
      h.getPriceChange24h now = some F64.posInf) := by
  constructor
  · intro hlt
    simp [PriceHistory.getPriceChange24h, hlt]
  · intro p0 pl hlen hfind hp0 hlast hpl
    have hnlt : ¬ h.points.length < 2 := by omega
    simp only [PriceHistory.getPriceChange24h, if_neg hnlt, hfind, Option.map_some', hlast]
    rw [hp0]
    have : ¬ ((0 : ℚ) ≠ 0) := by norm_num
    simp only [f64div, sub_zero, this, if_false, if_pos hpl, f64mul100]

/-- Witness for C2 amended at concrete inputs: an empty history yields
`None`, and `c2History` (baseline price 0, latest price 5, wall clock
1000000) yields `+∞`. -/
theorem price_change_24h_guards_witness :
    (PriceHistory.new 5 60).getPriceChange24h 1000000 = none ∧
    c2History.getPriceChange24h 1000000 = some F64.posInf :=
  ⟨(price_change_24h_guards (PriceHistory.new 5 60) 1000000 (by norm_num)).1
      (by simp [PriceHistory.new]),
   (price_change_24h_guards c2History 1000000 (by norm_num)).2 c2p1 c2p2
      (by simp [c2History]) (by decide) (by decide) (by decide) (by norm_num [c2p2])⟩

/-- C7 amended: a frame that parses as JSON but lacks the `pubkey`
field is silently ignored — the handler returns `Ok` with no error and
no update is queued — and the multiplexing loop stays alive: a
subsequent well-formed frame is still decoded into an update. -/
theorem missing_pubkey_frame_ignored (now : Nat) (j : Json) (hj : framePubkey j = none) :
    handleWebsocketMessage now j = .ok none ∧
    (wsRun now [.text j, .text goodFrame]).alive = true ∧
    (wsRun now [.text j, .text goodFrame]).updates = [goodUpdate now] := by
  have h1 : handleWebsocketMessage now j = .ok none := by
    rcases hP : j.getField "params" with _ | params
    · simp [handleWebsocketMessage, hP]
    · rcases hR : params.getField "result" with _ | result
      · simp [handleWebsocketMessage, hP, hR]
      · rcases hV : result.getField "value" with _ | value
        · simp [handleWebsocketMessage, hP, hR, hV]
        · simp only [framePubkey, hP, hR, hV] at hj
          rcases hD : (value.getField "data").bind (fun d => (d.getIdx 0).bind Json.asStr) with
            _ | s <;> simp [handleWebsocketMessage, hP, hR, hV, hD, hj]
  have hg : handleWebsocketMessage now goodFrame = .ok (some (goodUpdate now)) := rfl
  exact ⟨h1, by simp [wsRun, wsStep, WsState.init, h1, hg], by
    simp [wsRun, wsStep, WsState.init, h1, hg]⟩

/-- Witness for C7 amended at the concrete frame `noPubkeyFrame`. -/
theorem missing_pubkey_frame_ignored_witness :
    handleWebsocketMessage 0 noPubkeyFrame = .ok none ∧
    (wsRun 0 [.text noPubkeyFrame, .text goodFrame]).alive = true ∧
    (wsRun 0 [.text noPubkeyFrame, .text goodFrame]).updates = [goodUpdate 0] :=
  missing_pubkey_frame_ignored 0 noPubkeyFrame rfl

/-- C3 amended: detection emits no opportunity for a pair all of whose
input entries report fewer than 2 venue prices; however a pair whose
cheapest (buy-side) price is exactly 0 is not excluded — with a positive
dearest price it is emitted, with profit percentage `+∞` from the
unguarded division. -/
theorem detect_requires_two_venues (prices : List (String × List (String × ℚ)))
    (minP : ℚ) (now : Nat) (pair : String)
    (hfew : ∀ e ∈ prices, e.1 = pair → e.2.length < 2) :
    (∀ opp ∈ detectOpportunities prices minP now, opp.token_pair ≠ pair) ∧
    detectOpportunities [("P", [("A", 0), ("B", 102)])] 1 now =
      [⟨"P", "A", "B", 0, 102, F64.posInf, 0, now, F64.fin 1⟩] := by
  constructor
  · intro opp hmem hcontra
    have h1 : opp ∈ prices.flatMap (detectPair minP now) :=
      (mem_sortBy _ _ _).mp hmem
    obtain ⟨e, he, hoe⟩ := List.mem_flatMap.mp h1
    obtain ⟨hpair, hlen⟩ := mem_detectPair hoe
    have := hfew e he (hpair ▸ hcontra)
    omega
  · norm_num [detectOpportunities, detectPair, sortBy, insertBy, f64div, f64mul100, f64ge,
      calculateConfidenceScore, f64div10, f64minQ, f64maxQ, List.flatMap]

/-- Witness for C3 amended: a pair with a single reporting venue yields
nothing bearing its name, and the zero-buy-price pair is emitted with
infinite profit. -/
theorem detect_requires_two_venues_witness :
    (∀ opp ∈ detectOpportunities [("X", [("A", 5)])] 1 0, opp.token_pair ≠ "X") ∧
    detectOpportunities [("P", [("A", 0), ("B", 102)])] 1 0 =
      [⟨"P", "A", "B", 0, 102, F64.posInf, 0, 0, F64.fin 1⟩] :=
  detect_requires_two_venues [("X", [("A", 5)])] 1 0 "X" (by simp)

/-- C4 amended: for every capacity `N ≥ 1`, recording any point
sequence into a fresh history leaves exactly the `min(N, total)` most
recently recorded points, in original relative order (the FIFO suffix),
and the stored length never exceeds `N`. (For `N = 0` the claim fails —
see the counterexample.) -/
theorem points_fifo_bound (N tf : Nat) (ps : List PricePoint) (hN : 1 ≤ N) :
    ((PriceHistory.new N tf).recordAll ps).points = ps.drop (ps.length - N) ∧
    ((PriceHistory.new N tf).recordAll ps).points.length ≤ N := by
  have h := recordAll_points ps (PriceHistory.new N tf)
    (by simp [PriceHistory.new]) (by simpa [PriceHistory.new] using hN)
  have h' : ((PriceHistory.new N tf).recordAll ps).points = ps.drop (ps.length - N) := by
    simpa [PriceHistory.new] using h
  refine ⟨h', ?_⟩
  rw [h', List.length_drop]
  omega

/-- Witness for C4 amended at capacity 2 with three recorded points. -/
theorem points_fifo_bound_witness :
    ((PriceHistory.new 2 60).recordAll [pt1, pt2, pt3]).points =
      [pt1, pt2, pt3].drop ([pt1, pt2, pt3].length - 2) ∧
    ((PriceHistory.new 2 60).recordAll [pt1, pt2, pt3]).points.length ≤ 2 :=
  points_fifo_bound 2 60 [pt1, pt2, pt3] (by norm_num)

/-- C5: recording a non-empty sequence of points, in non-decreasing
timestamp order, all sharing the bucket `b = timestamp / timeframe`,
produces exactly one candlestick bucket with `open` the first price,
`close` the last price, `high`/`low` the maximum/minimum price, and
`volume` the sum of the volumes. -/
theorem candlestick_bucket_aggregation (N tf b : Nat) (ps : List PricePoint)
    (htf : 0 < tf) (hne : ps ≠ [])
    (hord : ps.Chain' (fun p q => p.timestamp ≤ q.timestamp))
    (hb : ∀ p ∈ ps, p.timestamp / tf = b) :
    ((PriceHistory.new N tf).recordAll ps).candlesticks =
      [⟨b * tf, (ps.head hne).price, listMax (ps.map (·.price)),
        listMin (ps.map (·.price)), (ps.getLast hne).price,
        (ps.map (·.volume)).sum⟩] := by
  obtain ⟨p0, rest, rfl⟩ := List.exists_cons_of_ne_nil hne
  have hb0 : p0.timestamp / tf = b := hb p0 (by simp)
  have h0 : ((PriceHistory.new N tf).addPricePoint p0).candlesticks =
      [⟨p0.timestamp / tf * tf, p0.price, p0.price, p0.price, p0.price, p0.volume⟩] := by
    unfold PriceHistory.addPricePoint
    exact updateCandlestick_fresh _ p0 (by simp [PriceHistory.new])
  have hrest : (((PriceHistory.new N tf).addPricePoint p0).recordAll rest).candlesticks =
      [rest.foldl candleAbsorb
        ⟨p0.timestamp / tf * tf, p0.price, p0.price, p0.price, p0.price, p0.volume⟩] := by
    apply recordAll_absorb rest b _ _ h0
    · show p0.timestamp / tf * tf = b * ((PriceHistory.new N tf).addPricePoint p0).timeframe_seconds
      rw [addPricePoint_timeframe]
      rw [hb0]
      rfl
    · intro q hq
      rw [addPricePoint_timeframe]
      exact hb q (by simp [hq])
  show (((PriceHistory.new N tf).addPricePoint p0).recordAll rest).candlesticks = _
  rw [hrest, foldl_candleAbsorb]
  have hclose : (rest.map (·.price)).getLastD p0.price =
      ((p0 :: rest).getLast hne).price := by
    rw [List.getLast_eq_getLastD, getLastD_map]
  simp only [List.map_cons, List.sum_cons, listMax, listMin, List.head_cons, hclose, hb0]

/-- Witness for C5 on three points in the 16th one-minute bucket. -/
theorem candlestick_bucket_aggregation_witness :
    ((PriceHistory.new 100 60).recordAll [pt1, pt2, pt3]).candlesticks =
      [⟨960, 100, 105, 95, 95, 17⟩] := by
  have h := candlestick_bucket_aggregation 100 60 16 [pt1, pt2, pt3]
    (by norm_num) (by simp) (by simp [pt1, pt2, pt3]) (by intro p hp; fin_cases hp <;> rfl)
  rw [h]
  norm_num [pt1, pt2, pt3, listMax, listMin]

/-- C6: discarding the bucket sequence and replaying the retained
points with a new timeframe (`regenerate_candlesticks`) yields the same
bucket sequence as recording exactly those points, in order, into an
empty history configured with that timeframe from the start. -/
theorem timeframe_replay_idempotent (h : PriceHistory) (tf : Nat) :
    (h.regenerateCandlesticks tf).candlesticks =
      ((PriceHistory.new h.max_size tf).recordAll h.points).candlesticks := by
  unfold PriceHistory.regenerateCandlesticks
  exact foldl_updateCandlestick_eq h.points _ _ rfl rfl rfl

end Sss
